import Mathlib

/-!
Verification of the patch validation and scoring engine of this repository
(`backend/agents/validation_agent.py`, `backend/agents/scoring_agent.py`).

Shallow embedding conventions:
* Python ints and test counts become `Nat`; score arithmetic (Python
  floats) becomes `ℚ`.  Python's `max(0, a - b)` on ints coincides with
  truncated `Nat` subtraction `a - b`.
* The test-execution backend (`TestRunnerAgent`, out of the verified
  core) is an oracle `runs : Nat → TestRunResult`: the k-th test-suite
  invocation of a validation session observes `runs k`.
* The filesystem is `FS := String → String` (path ↦ file content).
  A write can fail per path (`Env.writeOk`); the atomic temp-file/rename
  write of `_apply_code` means a failed write leaves the target file
  unchanged.  A Python `OSError` corresponds to `Except.error`, and the
  agent code has no handler, so an error propagates out of `validate`.
* `ZeroDivisionError` in the scoring agent corresponds to
  `Except.error ScoreErr.divByZero`.
* Wall-clock fields (`duration_seconds`) and log output are not modelled;
  Python float formatting in description strings is abstracted by
  `toString` of the exact rational.
* Python's `round(x, n)` is modelled by `roundTo n`; the half-to-even
  tie rule differs from `round` on ℚ only at exact ties, which none of
  the verified properties exercise.
-/

namespace Rift

/-- Modelled from the spec: the `TestRunResult` record returned by the
test-execution backend (`backend/agents/test_runner_agent.py` is not in
`src/`); §4.2 fixes the shape `{exitCode, total, passed, failed, errored,
rawOutput, durationSeconds}`.  Only the fields the engine reads are kept. -/
structure TestRunResult where
  exit_code : Nat
  total : Nat
  passed : Nat
  failed : Nat
  errors : Nat
  deriving DecidableEq, Repr

/-- Modelled from the spec: `Failure` (`backend/utils/models.py` is not in
`src/`): stable identifier, failure category, source location. -/
structure Failure where
  failure_id : String
  failure_type : String
  line_number : Nat
  deriving DecidableEq, Repr

/-- Modelled from the spec: `Patch` (`backend/utils/models.py` is not in
`src/`): identifier, target file path, original and patched file content,
rationale, change classification, diff, targeted failure, mutable
`validated` flag. -/
structure Patch where
  patch_id : String
  file_path : String
  original_code : String
  patched_code : String
  reasoning : String
  patch_type : String
  diff : String
  failure_id : String
  validated : Bool
  deriving DecidableEq, Repr

/-- Modelled from the spec: `ValidationResult` (`backend/utils/models.py`
is not in `src/`): patch reference, pass/fail, before/after failure
counts, tests newly fixed, new failures introduced, optional rejection
reason, determinism flag.  Defaults cover the keyword arguments the agent
omits at some construction sites. -/
structure ValidationResult where
  patch_id : String
  passed : Bool
  rejection_reason : Option String := none
  tests_before : Nat
  tests_after : Nat
  tests_fixed : Nat
  new_failures_introduced : Nat := 0
  deterministic : Bool
  deriving DecidableEq, Repr

/-- Modelled from the spec: `Fix` (`backend/utils/models.py` is not in
`src/`): durable record of an accepted patch, joining it to its failure.
Fields follow the construction site in `ValidationAgent._build_fix_records`. -/
structure Fix where
  failure_id : String
  patch_id : String
  failure_type : String
  file_path : String
  line_number : Nat
  description : String
  patch_type : String
  diff : String
  original_code : String
  patched_code : String
  validated : Bool
  deriving DecidableEq, Repr

/-- Modelled from the spec: `CITimelineEvent` (`backend/utils/models.py`
is not in `src/`): iteration, event kind, description, before/after
counts.  Wall-clock duration is not modelled. -/
structure CITimelineEvent where
  iteration : Nat
  event_type : String
  description : String
  failures_before : Option Nat := none
  failures_after : Option Nat := none
  deriving DecidableEq, Repr

/-- Modelled from the spec: the CI status enumeration
{SUCCESS, PARTIAL, FAILED}. -/
inductive CIStatus where
  | SUCCESS
  | PARTIAL
  | FAILED
  deriving DecidableEq, Repr

/-- Modelled from the spec: the `Scoring` record; fields follow the
construction site in `ScoringAgent._compute_score`. -/
structure Scoring where
  base_score : ℚ
  speed_factor : ℚ
  fix_efficiency : ℚ
  regression_penalty : ℚ
  ci_success_score : ℚ
  total_score : ℚ
  iterations_used : Nat
  total_possible_fixes : Nat
  actual_fixes : Nat
  computation_method : String
  deriving DecidableEq, Repr

/-- Modelled from the spec: the slice of `AgentState`
(`backend/utils/models.py` is not in `src/`) that the validation and
scoring agents read and write. -/
structure AgentState where
  failures : List Failure
  patches : List Patch
  fixes : List Fix
  validation_results : List ValidationResult
  timeline : List CITimelineEvent
  iteration : Nat
  max_retries : Nat
  pytest_exit_code : Option Nat
  fatal_error : Bool
  ci_status : CIStatus
  scoring : Option Scoring
  deriving DecidableEq, Repr

/-- Modelled from the spec: the numeric configuration constants
(`config/settings.py` is not in `src/`); §6 lists `SCORE_BASE`,
`SCORE_PER_FIX`, `SCORE_SPEED_FACTOR`, `SCORE_REGRESSION_PENALTY`. -/
structure Settings where
  SCORE_BASE : ℚ
  SCORE_PER_FIX : ℚ
  SCORE_SPEED_FACTOR : ℚ
  SCORE_REGRESSION_PENALTY : ℚ
  deriving DecidableEq, Repr

/-- Python's `round(x, n)` (exact on the non-tie values arising here). -/
def roundTo (n : ℕ) (q : ℚ) : ℚ := ((round (q * 10 ^ n) : ℤ) : ℚ) / 10 ^ n

/-- `ScoringAgent.run`, the status-finalization step: count of failures
with no fix sharing their `failure_id` (scoring_agent.py lines 42-44). -/
def remainingFailures (s : AgentState) : Nat :=
  (s.failures.filter (fun f => ¬ s.fixes.any (fun fx => fx.failure_id = f.failure_id))).length

/-- `ScoringAgent.run`, lines 46-58: the CI status cascade. -/
def finalizeCI (s : AgentState) : CIStatus :=
  let no_test_suite := s.pytest_exit_code = some 5
  if s.fatal_error then CIStatus.FAILED
  else if remainingFailures s = 0 then CIStatus.SUCCESS
  else if s.fixes ≠ [] ∧ no_test_suite then CIStatus.SUCCESS
  else if s.fixes ≠ [] then CIStatus.PARTIAL
  else CIStatus.FAILED

/-- Error raised by `ScoringAgent._compute_score`: Python
`ZeroDivisionError` on `(max_iters - iters_used) / max_iters`. -/
inductive ScoreErr where
  | divByZero
  deriving DecidableEq, Repr

/-- `ScoringAgent._compute_score` (scoring_agent.py lines 80-122).
Python raises `ZeroDivisionError` exactly when `max_retries = 0`
(the `fix_efficiency` division is guarded by `total_failures > 0`). -/
def computeScore (st : Settings) (s : AgentState) : Except ScoreErr Scoring :=
  let total_failures := s.failures.length
  let actual_fixes := (s.fixes.filter (fun f => f.validated)).length
  let total_regressions := (s.validation_results.map (fun r => r.new_failures_introduced)).sum
  let base := st.SCORE_BASE
  let fix_efficiency : ℚ :=
    if total_failures > 0 then (actual_fixes : ℚ) / (total_failures : ℚ) else 0
  let fix_score := (actual_fixes : ℚ) * st.SCORE_PER_FIX
  if s.max_retries = 0 then Except.error ScoreErr.divByZero
  else
    let speed_factor : ℚ :=
      max 0 (((s.max_retries : ℚ) - (s.iteration : ℚ)) / (s.max_retries : ℚ))
    let speed_bonus := speed_factor * st.SCORE_SPEED_FACTOR * 10
    let regression_penalty := (total_regressions : ℚ) * st.SCORE_REGRESSION_PENALTY
    let ci_success_score : ℚ := if s.ci_status = CIStatus.SUCCESS then 20 else 0
    let total := max 0 (base + fix_score + speed_bonus - regression_penalty + ci_success_score)
    Except.ok
      { base_score := base
        speed_factor := roundTo 4 speed_factor
        fix_efficiency := roundTo 4 fix_efficiency
        regression_penalty := roundTo 2 regression_penalty
        ci_success_score := ci_success_score
        total_score := roundTo 2 total
        iterations_used := s.iteration
        total_possible_fixes := total_failures
        actual_fixes := actual_fixes
        computation_method := "deterministic" }

/-- `ScoringAgent.run` (scoring_agent.py lines 37-77): finalize CI status,
compute the score, store it and append a timeline event.  An unhandled
`ZeroDivisionError` propagates as `Except.error`. -/
def scoringRun (st : Settings) (s : AgentState) : Except ScoreErr AgentState := do
  let s1 : AgentState := { s with ci_status := finalizeCI s }
  let sc ← computeScore st s1
  Except.ok { s1 with
    scoring := some sc
    timeline := s1.timeline ++
      [{ iteration := s1.iteration
         event_type := "SCORING"
         description := "Final score: " ++ toString sc.total_score ++ "/100" }] }

/-- The filesystem: path ↦ file content. -/
def FS : Type := String → String

/-- The single I/O error kind the embedding distinguishes (the agent code
never inspects the exception, only whether one was raised). -/
inductive IOErr where
  | ioError
  deriving DecidableEq, Repr

/-- The validation session's environment: per-path write permission and
the oracle stream of test-suite runs (k-th invocation observes `runs k`). -/
structure Env where
  writeOk : String → Bool
  runs : Nat → TestRunResult

/-- `ValidationAgent._apply_code` (validation_agent.py lines 200-205):
atomic write via temp file + rename; on failure the target file is
unchanged and the `OSError` propagates. -/
def applyCode (env : Env) (fs : FS) (path code : String) : Except IOErr FS :=
  if env.writeOk path then
    Except.ok (fun q => if q = path then code else fs q)
  else Except.error IOErr.ioError

/-- `ValidationAgent.run` lines 55-58: the `patches_by_file` dict, keeping
the first patch encountered per file path, in insertion order. -/
def patchesByFileAux (acc : List (String × Patch)) : List Patch → List (String × Patch)
  | [] => acc
  | p :: rest =>
    if p.file_path ∈ acc.map Prod.fst then patchesByFileAux acc rest
    else patchesByFileAux (acc ++ [(p.file_path, p)]) rest

/-- The `patches_by_file` grouping over all of `state.patches`. -/
def patchesByFile (ps : List Patch) : List (String × Patch) :=
  patchesByFileAux [] ps

/-- Effect of the in-place mutation `p.validated = True` over the grouped
patches (`ValidationAgent.run` lines 75-76) on the master patch list: the
first patch of each file path gets its flag set. -/
def markFirstPerFile (seen : List String) : List Patch → List Patch
  | [] => []
  | p :: rest =>
    if p.file_path ∈ seen then p :: markFirstPerFile seen rest
    else { p with validated := true } :: markFirstPerFile (p.file_path :: seen) rest

/-- Apply a list of (path, content) writes left to right, stopping at the
first I/O failure (the loops at lines 66-67 and 84-85). -/
def applyAll (env : Env) : FS → List (String × String) → Except IOErr FS
  | fs, [] => Except.ok fs
  | fs, (path, code) :: rest => do
    let fs1 ← applyCode env fs path code
    applyAll env fs1 rest

/-- The decision core of `ValidationAgent._validate_patch`
(validation_agent.py lines 131-197), after the patch has been applied and
the suite run once (`run1`).  `max(0, a - b)` is `Nat` subtraction. -/
def decideResult (patch : Patch) (baseline_fail_count : Nat) (previous_exit : Option Nat)
    (run1 : TestRunResult) : ValidationResult :=
  let tests_before := baseline_fail_count
  let tests_after_1 := run1.failed + run1.errors
  if run1.exit_code = 5 ∨ (tests_before = 0 ∧ run1.exit_code ≠ 1) then
    { patch_id := patch.patch_id
      passed := true
      tests_before := tests_before
      tests_after := tests_after_1
      tests_fixed := 1
      new_failures_introduced := 0
      deterministic := true }
  else if previous_exit = some 2 ∧ run1.exit_code = 1 ∧ run1.passed > 0 then
    { patch_id := patch.patch_id
      passed := true
      tests_before := tests_before
      tests_after := tests_after_1
      tests_fixed := run1.passed
      new_failures_introduced := 0
      deterministic := true }
  else
    let new_failures := tests_after_1 - tests_before
    let tests_fixed := tests_before - tests_after_1
    if new_failures > 0 then
      { patch_id := patch.patch_id
        passed := false
        rejection_reason := some ("Introduced " ++ toString new_failures ++ " new failures")
        new_failures_introduced := new_failures
        tests_before := tests_before
        tests_after := tests_after_1
        tests_fixed := tests_fixed
        deterministic := true }
    else if tests_after_1 ≥ tests_before ∧ tests_before > 0 then
      { patch_id := patch.patch_id
        passed := false
        rejection_reason := some "No tests fixed by this patch"
        tests_before := tests_before
        tests_after := tests_after_1
        tests_fixed := tests_fixed
        deterministic := true }
    else
      { patch_id := patch.patch_id
        passed := true
        tests_before := tests_before
        tests_after := tests_after_1
        tests_fixed := tests_fixed
        deterministic := true }

/-- Output of the batch phase of `ValidationAgent.run`. -/
structure BatchOut where
  fs : FS
  patches : List Patch
  results : List ValidationResult
  accepted : List Patch
  runIdx : Nat

/-- `ValidationAgent.run` lines 54-86: the batch validation attempt.
Runs only when the grouping holds more than one file; on acceptance every
grouped patch is flagged validated with one synthesized result; on
rejection every grouped file is reverted to its `original_code`. -/
def batchPhase (env : Env) (fs : FS) (baseline : Nat) (patches : List Patch) :
    Except IOErr BatchOut :=
  let grouped := patchesByFile patches
  if grouped.length > 1 then do
    let fs1 ← applyAll env fs (grouped.map (fun e => (e.1, e.2.patched_code)))
    let batch_run := env.runs 0
    let batch_fails := batch_run.failed + batch_run.errors
    if batch_fails < baseline ∨ (baseline = 0 ∧ batch_run.exit_code = 0) then
      Except.ok
        { fs := fs1
          patches := markFirstPerFile [] patches
          results := grouped.map (fun e =>
            { patch_id := e.2.patch_id
              passed := true
              tests_before := baseline
              tests_after := batch_fails
              tests_fixed := 1
              deterministic := true })
          accepted := grouped.map (fun e => { e.2 with validated := true })
          runIdx := 1 }
    else do
      let fs2 ← applyAll env fs1 (grouped.map (fun e => (e.1, e.2.original_code)))
      Except.ok { fs := fs2, patches := patches, results := [], accepted := [], runIdx := 1 }
  else
    Except.ok { fs := fs, patches := patches, results := [], accepted := [], runIdx := 0 }

/-- Output of the sequential phase of `ValidationAgent.run`. -/
structure SeqOut where
  patches : List Patch
  fs : FS
  runIdx : Nat
  results : List ValidationResult
  accepted : List Patch

/-- `ValidationAgent.run` lines 88-103: the sequential fallback loop over
patches not validated by the batch phase.  Each attempt applies the
patch, runs the suite once, decides via `decideResult`, and on rejection
reverts the file to the patch's `original_code`.  An I/O error while
applying or reverting propagates (there is no handler in the source). -/
def seqLoop (env : Env) (baseline : Nat) (prevExit : Option Nat) :
    List Patch → FS → Nat → Except IOErr SeqOut
  | [], fs, k => Except.ok ⟨[], fs, k, [], []⟩
  | p :: rest, fs, k =>
    if p.validated then do
      let o ← seqLoop env baseline prevExit rest fs k
      Except.ok { o with patches := p :: o.patches }
    else do
      let fs1 ← applyCode env fs p.file_path p.patched_code
      let run1 := env.runs k
      let res := decideResult p baseline prevExit run1
      if res.passed then do
        let o ← seqLoop env baseline prevExit rest fs1 (k + 1)
        Except.ok { o with
          patches := { p with validated := true } :: o.patches
          results := res :: o.results
          accepted := { p with validated := true } :: o.accepted }
      else do
        let fs2 ← applyCode env fs1 p.file_path p.original_code
        let o ← seqLoop env baseline prevExit rest fs2 (k + 1)
        Except.ok { o with patches := p :: o.patches, results := res :: o.results }

/-- The `failure_map` dict comprehension of
`ValidationAgent._build_fix_records` (line 222): later duplicates of a
`failure_id` override earlier ones, so lookup returns the last match. -/
def lookupFailureLast (failures : List Failure) (id : String) : Option Failure :=
  (failures.filter (fun f => f.failure_id = id)).getLast?

/-- `ValidationAgent._build_fix_records` (lines 220-244): one Fix per
accepted patch whose failure still exists, in acceptance order. -/
def buildFixRecords (failures : List Failure) (accepted : List Patch) : List Fix :=
  accepted.filterMap (fun p =>
    (lookupFailureLast failures p.failure_id).map (fun failure =>
      { failure_id := p.failure_id
        patch_id := p.patch_id
        failure_type := failure.failure_type
        file_path := p.file_path
        line_number := failure.line_number
        description := p.reasoning
        patch_type := p.patch_type
        diff := p.diff
        original_code := p.original_code
        patched_code := p.patched_code
        validated := true }))

/-- `ValidationAgent.run` (validation_agent.py lines 46-121):
`baseline_failures = len(state.failures)`; batch phase; sequential
fallback; then the state update: `validation_results` is assigned (not
extended), `fixes` is extended, and a timeline event is appended. -/
def validate (env : Env) (fs : FS) (s : AgentState) : Except IOErr (AgentState × FS) := do
  let baseline_failures := s.failures.length
  let b ← batchPhase env fs baseline_failures s.patches
  let o ← seqLoop env baseline_failures s.pytest_exit_code b.patches b.fs b.runIdx
  let validation_results := b.results ++ o.results
  let accepted_patches := b.accepted ++ o.accepted
  let acceptedCount := (validation_results.filter (fun r => r.passed)).length
  Except.ok
    ({ s with
        patches := o.patches
        validation_results := validation_results
        fixes := s.fixes ++ buildFixRecords s.failures accepted_patches
        timeline := s.timeline ++
          [{ iteration := s.iteration
             event_type := "VALIDATION"
             description := "Validated " ++ toString validation_results.length ++
               " patches — " ++ toString acceptedCount ++ " accepted (Optimized Core)"
             failures_before := some baseline_failures
             failures_after := some (baseline_failures - acceptedCount) }] },
      o.fs)

/-! ## Projections of run outcomes (used to state properties) -/

/-- Whether a validation run returned normally. -/
def okOf (x : Except IOErr (AgentState × FS)) : Bool :=
  match x with
  | Except.ok _ => true
  | Except.error _ => false

/-- The validation results of a normally returning run (`[]` on error). -/
def resultsOf (x : Except IOErr (AgentState × FS)) : List ValidationResult :=
  match x with
  | Except.ok (s, _) => s.validation_results
  | Except.error _ => []

/-- The patch list of a normally returning run (`[]` on error). -/
def patchesOf (x : Except IOErr (AgentState × FS)) : List Patch :=
  match x with
  | Except.ok (s, _) => s.patches
  | Except.error _ => []

/-- The final filesystem of a normally returning run. -/
def fsOf (x : Except IOErr (AgentState × FS)) : FS :=
  match x with
  | Except.ok (_, fs) => fs
  | Except.error _ => fun _ => ""

/-- The CI status of a normally returning scoring run. -/
def ciOf (x : Except ScoreErr AgentState) : Option CIStatus :=
  match x with
  | Except.ok s => some s.ci_status
  | Except.error _ => none

/-- The scoring record of a normally returning scoring run. -/
def scoringOf (x : Except ScoreErr AgentState) : Option Scoring :=
  match x with
  | Except.ok s => s.scoring
  | Except.error _ => none

/-- Sum of `tests_fixed` over the results with `passed = true`. -/
def acceptedFixedSum (rs : List ValidationResult) : Nat :=
  ((rs.filter (fun r => r.passed)).map (fun r => r.tests_fixed)).sum

/-! ## Spec-side definitions (written from the claims, for comparison) -/

/-- §4.2's sentinel: "suite exists but collected zero tests". -/
def NO_TESTS_COLLECTED : Nat := 5

/-- §4.2's sentinel: "the repository fails to even parse". -/
def SYNTAX_ERROR : Nat := 2

/-- Claim C2's described baseline: count of failures in `state.failures`
with no corresponding accepted fix (matched by `failure_id`). -/
def baselineSpecC2 (s : AgentState) : Nat :=
  (s.failures.filter (fun f => ¬ s.fixes.any (fun fx => fx.failure_id = f.failure_id))).length

/-- Claim C7's description of the `validateOne` decision order, written
from the claim text: (1) no-tests-collected or trivial baseline, accept
with sentinel `tests_fixed = 1`; (2) syntax-error-to-executing
transition with a passing test, accept with `tests_fixed = passed`;
(3) the arithmetic comparison with its two rejection reasons. -/
def validateOneSpecC7 (patch : Patch) (before : Nat) (previousExit : Option Nat)
    (run1 : TestRunResult) : ValidationResult :=
  let after := run1.failed + run1.errors
  if run1.exit_code = NO_TESTS_COLLECTED ∨ (before = 0 ∧ run1.exit_code ≠ 1) then
    { patch_id := patch.patch_id, passed := true, tests_before := before,
      tests_after := after, tests_fixed := 1, new_failures_introduced := 0,
      deterministic := true }
  else if previousExit = some SYNTAX_ERROR ∧ run1.exit_code = 1 ∧ run1.passed > 0 then
    { patch_id := patch.patch_id, passed := true, tests_before := before,
      tests_after := after, tests_fixed := run1.passed, new_failures_introduced := 0,
      deterministic := true }
  else
    let newFailures := after - before
    let testsFixed := before - after
    if newFailures > 0 then
      { patch_id := patch.patch_id, passed := false,
        rejection_reason := some ("Introduced " ++ toString newFailures ++ " new failures"),
        new_failures_introduced := newFailures, tests_before := before,
        tests_after := after, tests_fixed := testsFixed, deterministic := true }
    else if after ≥ before ∧ before > 0 then
      { patch_id := patch.patch_id, passed := false,
        rejection_reason := some "No tests fixed by this patch",
        tests_before := before, tests_after := after, tests_fixed := testsFixed,
        deterministic := true }
    else
      { patch_id := patch.patch_id, passed := true, tests_before := before,
        tests_after := after, tests_fixed := testsFixed, deterministic := true }

/-- Claim C9's description of the CI status cascade, written from the
claim text. -/
def ciStatusSpecC9 (s : AgentState) : CIStatus :=
  if s.fatal_error then CIStatus.FAILED
  else if (s.failures.filter (fun f =>
      ¬ s.fixes.any (fun fx => fx.failure_id = f.failure_id))).length = 0 then
    CIStatus.SUCCESS
  else if s.fixes ≠ [] ∧ s.pytest_exit_code = some NO_TESTS_COLLECTED then CIStatus.SUCCESS
  else if s.fixes ≠ [] then CIStatus.PARTIAL
  else CIStatus.FAILED

/-- Claim C8's described grouping: only proposed, *not-yet-validated*
patches are grouped by target file. -/
def groupSpecC8 (ps : List Patch) : List (String × Patch) :=
  patchesByFile (ps.filter (fun p => ¬ p.validated))

/-! ## Concrete fixtures (witness and counterexample inputs) -/

/-- A concrete patch record. -/
def mkPatch (id fp orig patched fid : String) (v : Bool) : Patch :=
  { patch_id := id, file_path := fp, original_code := orig, patched_code := patched,
    reasoning := "r", patch_type := "logic", diff := "d", failure_id := fid, validated := v }

/-- A concrete failure record. -/
def mkFailure (id : String) (n : Nat) : Failure :=
  { failure_id := id, failure_type := "assertion", line_number := n }

/-- A concrete test-run outcome. -/
def mkRun (ec p f e : Nat) : TestRunResult :=
  { exit_code := ec, total := p + f + e, passed := p, failed := f, errors := e }

/-- A session state with empty collections. -/
def emptyState : AgentState :=
  { failures := [], patches := [], fixes := [], validation_results := [], timeline := [],
    iteration := 1, max_retries := 5, pytest_exit_code := none, fatal_error := false,
    ci_status := CIStatus.FAILED, scoring := none }

/-- A concrete settings valuation. -/
def settings0 : Settings :=
  { SCORE_BASE := 100, SCORE_PER_FIX := 10, SCORE_SPEED_FACTOR := 1,
    SCORE_REGRESSION_PENALTY := 5 }

/-- The empty filesystem. -/
def fs0 : FS := fun _ => ""

/-- Environment: all writes succeed, every run reports a fixed outcome. -/
def envRuns (r : TestRunResult) : Env := { writeOk := fun _ => true, runs := fun _ => r }

/-- A validation result present in the state before `validate` runs. -/
def priorResult : ValidationResult :=
  { patch_id := "p0", passed := true, tests_before := 1, tests_after := 0,
    tests_fixed := 1, deterministic := true }

/-- The input state of the C5 counterexample. -/
def cx5 : AgentState := { emptyState with validation_results := [priorResult] }

/-- The input state of the C1 counterexample: zero recorded failures and
two proposed patches on the same file. -/
def cx1 : AgentState :=
  { emptyState with patches :=
      [mkPatch "A" "a" "oa" "pa" "f1" false, mkPatch "B" "a" "ob" "pb" "f1" false] }

/-- A fix record matching failure `f1`. -/
def fix1 : Fix :=
  { failure_id := "f1", patch_id := "p1", failure_type := "assertion", file_path := "a",
    line_number := 1, description := "r", patch_type := "logic", diff := "d",
    original_code := "oa", patched_code := "pa", validated := true }

/-- The input state of the C2 counterexample: one failure that already
has an accepted fix, plus one fresh patch. -/
def cx2 : AgentState :=
  { emptyState with
      failures := [mkFailure "f1" 1]
      fixes := [fix1]
      patches := [mkPatch "A" "a" "oa" "pa" "f1" false] }

/-- The validation result of the C3 scenario: one accepted patch
recording `tests_fixed = 5` and no regression. -/
def c3Result : ValidationResult :=
  { patch_id := "p1", passed := true, tests_before := 5, tests_after := 0,
    tests_fixed := 5, new_failures_introduced := 0, deterministic := true }

/-- The C3 scenario state: 5 original failures, exactly one accepted fix,
one validation result with `tests_fixed = 5` and zero regressions,
iteration 1 of max 5, last exit code not the no-tests sentinel. -/
def c3State : AgentState :=
  { emptyState with
      failures := [mkFailure "f1" 1, mkFailure "f2" 2, mkFailure "f3" 3,
        mkFailure "f4" 4, mkFailure "f5" 5]
      fixes := [fix1]
      validation_results := [c3Result]
      iteration := 1
      max_retries := 5
      pytest_exit_code := some 1 }

/-- The C4 counterexample environment: writing file "a" fails. -/
def env4 : Env :=
  { writeOk := fun p => if p = "a" then false else true, runs := fun _ => mkRun 0 0 0 0 }

/-- The C4 counterexample state: two patches on distinct files, the
first of which targets the unwritable file. -/
def cx4 : AgentState :=
  { emptyState with
      failures := [mkFailure "f1" 1]
      patches := [mkPatch "A" "a" "oa" "pa" "f1" false, mkPatch "B" "b" "ob" "pb" "f1" false] }

/-- The C6 counterexample environment: first run passes one test, later
runs fail one test. -/
def env6 : Env :=
  { writeOk := fun _ => true,
    runs := fun k => if k = 0 then mkRun 0 1 0 0 else mkRun 1 0 1 0 }

/-- The C6 counterexample state: two patches targeting the same file. -/
def cx6 : AgentState :=
  { emptyState with
      failures := [mkFailure "f1" 1]
      patches := [mkPatch "A" "a" "oa" "pa" "f1" false, mkPatch "B" "a" "ob" "pb" "f1" false] }

/-- The C8 counterexample state: patch A is already validated, patch B is
not; the two target distinct files. -/
def cx8 : AgentState :=
  { emptyState with
      failures := [mkFailure "f1" 1]
      patches := [mkPatch "A" "a" "oa" "pa" "f1" true, mkPatch "B" "b" "ob" "pb" "f1" false] }

/-- Environment for the C6 witness: every write succeeds; the batch run
fails one test, the next run passes one test, later runs fail one. -/
def envW6 : Env :=
  { writeOk := fun _ => true,
    runs := fun k => if k = 0 then mkRun 1 0 1 0
      else if k = 1 then mkRun 0 1 0 0 else mkRun 1 0 1 0 }

/-! ## General lemmas about the embedding -/

@[simp] theorem except_bind_ok {ε α β : Type} (a : α) (f : α → Except ε β) :
    (Except.ok a >>= f) = f a := rfl

@[simp] theorem except_bind_error {ε α β : Type} (e : ε) (f : α → Except ε β) :
    ((Except.error e : Except ε α) >>= f) = Except.error e := rfl

theorem decideResult_tests_before (patch : Patch) (n : Nat) (pe : Option Nat)
    (r : TestRunResult) : (decideResult patch n pe r).tests_before = n := by
  simp only [decideResult]
  split_ifs <;> rfl

theorem seqLoop_results_before (env : Env) (n : Nat) (pe : Option Nat) :
    ∀ (l : List Patch) (fs : FS) (k : Nat) (o : SeqOut),
      seqLoop env n pe l fs k = Except.ok o → ∀ r ∈ o.results, r.tests_before = n := by
  intro l
  induction l with
  | nil =>
    intro fs k o h r hr
    simp only [seqLoop] at h
    injection h with h
    subst h
    simp at hr
  | cons p rest ih =>
    intro fs k o h r hr
    simp only [seqLoop] at h
    by_cases hv : p.validated = true
    · rw [if_pos hv] at h
      cases hs : seqLoop env n pe rest fs k with
      | error e => rw [hs] at h; simp at h
      | ok o1 =>
        rw [hs] at h
        simp only [except_bind_ok] at h
        injection h with h
        subst h
        exact ih fs k o1 hs r hr
    · rw [if_neg hv] at h
      cases ha : applyCode env fs p.file_path p.patched_code with
      | error e => rw [ha] at h; simp at h
      | ok fs1 =>
        rw [ha] at h
        simp only [except_bind_ok] at h
        by_cases hp : (decideResult p n pe (env.runs k)).passed = true
        · rw [if_pos hp] at h
          cases hs : seqLoop env n pe rest fs1 (k + 1) with
          | error e => rw [hs] at h; simp at h
          | ok o1 =>
            rw [hs] at h
            simp only [except_bind_ok] at h
            injection h with h
            subst h
            simp only [List.mem_cons] at hr
            rcases hr with rfl | hr
            · exact decideResult_tests_before p n pe (env.runs k)
            · exact ih fs1 (k + 1) o1 hs r hr
        · rw [if_neg hp] at h
          cases ha2 : applyCode env fs1 p.file_path p.original_code with
          | error e => rw [ha2] at h; simp at h
          | ok fs2 =>
            rw [ha2] at h
            simp only [except_bind_ok] at h
            cases hs : seqLoop env n pe rest fs2 (k + 1) with
            | error e => rw [hs] at h; simp at h
            | ok o1 =>
              rw [hs] at h
              simp only [except_bind_ok] at h
              injection h with h
              subst h
              simp only [List.mem_cons] at hr
              rcases hr with rfl | hr
              · exact decideResult_tests_before p n pe (env.runs k)
              · exact ih fs2 (k + 1) o1 hs r hr

theorem batchPhase_results_before (env : Env) (fs : FS) (n : Nat) (ps : List Patch)
    (b : BatchOut) (h : batchPhase env fs n ps = Except.ok b) :
    ∀ r ∈ b.results, r.tests_before = n := by
  simp only [batchPhase] at h
  by_cases hgt : (patchesByFile ps).length > 1
  · rw [if_pos hgt] at h
    cases ha : applyAll env fs ((patchesByFile ps).map fun e => (e.1, e.2.patched_code)) with
    | error e => rw [ha] at h; simp at h
    | ok fs1 =>
      rw [ha] at h
      simp only [except_bind_ok] at h
      by_cases hacc : ((env.runs 0).failed + (env.runs 0).errors < n ∨
          (n = 0 ∧ (env.runs 0).exit_code = 0))
      · rw [if_pos hacc] at h
        injection h with h
        subst h
        intro r hr
        simp only [List.mem_map] at hr
        obtain ⟨e, _, rfl⟩ := hr
        rfl
      · rw [if_neg hacc] at h
        cases ha2 : applyAll env fs1 ((patchesByFile ps).map fun e => (e.1, e.2.original_code)) with
        | error e => rw [ha2] at h; simp at h
        | ok fs2 =>
          rw [ha2] at h
          simp only [except_bind_ok] at h
          injection h with h
          subst h
          intro r hr
          simp at hr
  · rw [if_neg hgt] at h
    injection h with h
    subst h
    intro r hr
    simp at hr

theorem scoring_partial_core (st : Settings) (s : AgentState)
    (hfat : s.fatal_error = false)
    (hexit : s.pytest_exit_code ≠ some 5)
    (hF : s.failures.length = 5)
    (hfx : ∃ fx : Fix, s.fixes = [fx] ∧ fx.validated = true)
    (hrem : remainingFailures s ≠ 0)
    (hreg : (s.validation_results.map (fun r => r.new_failures_introduced)).sum = 0)
    (hit : s.iteration = 1) (hmax : s.max_retries = 5) :
    ciOf (scoringRun st s) = some CIStatus.PARTIAL ∧
    scoringOf (scoringRun st s) = some
      { base_score := st.SCORE_BASE
        speed_factor := 4/5
        fix_efficiency := 1/5
        regression_penalty := 0
        ci_success_score := 0
        total_score := roundTo 2 (max 0 (st.SCORE_BASE + st.SCORE_PER_FIX +
          4/5 * st.SCORE_SPEED_FACTOR * 10))
        iterations_used := 1
        total_possible_fixes := 5
        actual_fixes := 1
        computation_method := "deterministic" } := by
  obtain ⟨fx, hfxeq, hfxv⟩ := hfx
  have hne : s.fixes ≠ [] := by rw [hfxeq]; simp
  have hci : finalizeCI s = CIStatus.PARTIAL := by
    simp [finalizeCI, hfat, hrem, hne, hexit]
  have hfil : (s.fixes.filter (fun f => f.validated)).length = 1 := by
    rw [hfxeq]
    simp [List.filter, hfxv]
  have hcs : computeScore st { s with ci_status := CIStatus.PARTIAL } = Except.ok
      { base_score := st.SCORE_BASE
        speed_factor := 4/5
        fix_efficiency := 1/5
        regression_penalty := 0
        ci_success_score := 0
        total_score := roundTo 2 (max 0 (st.SCORE_BASE + st.SCORE_PER_FIX +
          4/5 * st.SCORE_SPEED_FACTOR * 10))
        iterations_used := 1
        total_possible_fixes := 5
        actual_fixes := 1
        computation_method := "deterministic" } := by
    unfold computeScore
    dsimp only
    rw [hF, hfil, hreg, hit, hmax]
    norm_num
    refine ⟨?_, ?_, ?_, ?_⟩
    · norm_num [roundTo, round_eq]
    · norm_num [roundTo, round_eq]
    · norm_num [roundTo, round_eq]
    · exact ⟨by decide, by simp⟩
  unfold scoringRun
  dsimp only
  rw [hci, hcs]
  exact ⟨rfl, rfl⟩

/-! ## Claim C7 -/

/-- C7: for every patch evaluated sequentially, `_validate_patch` decides
in exactly the claimed order: (1) no-tests-collected exit code, or zero
baseline with a run that did not fail outright, accepts with
`tests_fixed = 1`; (2) a previous syntax-error exit together with an
executing run and at least one passing test accepts with
`tests_fixed = passed`; (3) otherwise the `max(0, ·)` arithmetic with the
two rejection reasons, else accept. -/
theorem validate_one_decision_order (patch : Patch) (before : Nat)
    (previousExit : Option Nat) (run1 : TestRunResult) :
    decideResult patch before previousExit run1 =
      validateOneSpecC7 patch before previousExit run1 := rfl

/-! ## Claim C9 -/

/-- C9: the scoring engine finalizes CI status by the exact claimed
cascade: FAILED on the fatal-error flag; else SUCCESS when zero failures
remain unresolved by a fix (matched by `failure_id`); else SUCCESS when
some fix exists and the last exit code was the no-tests-collected
sentinel; else PARTIAL when some fix exists; else FAILED. -/
theorem ci_status_cascade (s : AgentState) : finalizeCI s = ciStatusSpecC9 s := rfl

/-! ## Claim C10 -/

/-- C10: with `max_retries = 0` the speed-factor division of
`_compute_score` divides by zero, so the scoring run raises instead of
producing a Scoring record. -/
theorem scoring_divzero (st : Settings) (s : AgentState) (h : s.max_retries = 0) :
    scoringRun st s = Except.error ScoreErr.divByZero := by
  have hcs : computeScore st { s with ci_status := finalizeCI s } =
      Except.error ScoreErr.divByZero := by
    unfold computeScore
    simp [h]
  unfold scoringRun
  dsimp only
  rw [hcs]
  rfl

theorem scoring_divzero_witness :
    ({ emptyState with max_retries := 0 } : AgentState).max_retries = 0 ∧
    scoringRun settings0 { emptyState with max_retries := 0 } =
      Except.error ScoreErr.divByZero :=
  ⟨rfl, scoring_divzero settings0 { emptyState with max_retries := 0 } rfl⟩

/-! ## Claim C5 -/

/-- C5 counterexample: with no patches and one pre-existing validation
result, `validate` returns normally and the prior result is gone from
`validation_results` — the list was replaced, not appended to. -/
theorem validation_results_not_appended :
    okOf (validate (envRuns (mkRun 0 0 0 0)) fs0 cx5) = true ∧
    resultsOf (validate (envRuns (mkRun 0 0 0 0)) fs0 cx5) = [] ∧
    cx5.validation_results = [priorResult] := by decide

/-- C5 (amended): `validate` overwrites `state.validation_results` with
the results of this call and never reads the prior list — its outcome is
identical whatever validation results the input state holds. -/
theorem validate_replaces_results (env : Env) (fs : FS) (s : AgentState)
    (rs₁ rs₂ : List ValidationResult) :
    validate env fs { s with validation_results := rs₁ } =
      validate env fs { s with validation_results := rs₂ } := rfl

/-! ## Claim C1 -/

/-- C1 counterexample: with zero failures at session start and two
patches accepted through the no-test-suite path (exit code 5), the sum of
`tests_fixed` over accepted results is 2, exceeding the session-start
failure count 0. -/
theorem tests_fixed_sum_exceeds_baseline :
    okOf (validate (envRuns (mkRun 5 0 0 0)) fs0 cx1) = true ∧
    acceptedFixedSum (resultsOf (validate (envRuns (mkRun 5 0 0 0)) fs0 cx1)) = 2 ∧
    cx1.failures.length = 0 := by decide

/-- C1 (amended): the bound holds per result on the standard comparison
path only: when neither the no-test-suite acceptance nor the syntax-fix
acceptance applies, the produced result records `tests_fixed ≤` the
session-start failure count.  (Batch-synthesized and no-test-suite
results record the sentinel 1 per patch and the syntax-fix path records
the passing count, so the aggregate sum over accepted results can exceed
the baseline, as the counterexample shows.) -/
theorem arith_path_fixed_le_baseline (patch : Patch) (before : Nat)
    (previousExit : Option Nat) (run1 : TestRunResult)
    (h1 : ¬ (run1.exit_code = 5 ∨ (before = 0 ∧ run1.exit_code ≠ 1)))
    (h2 : ¬ (previousExit = some 2 ∧ run1.exit_code = 1 ∧ run1.passed > 0)) :
    (decideResult patch before previousExit run1).tests_fixed ≤ before := by
  unfold decideResult
  rw [if_neg h1, if_neg h2]
  dsimp only
  split_ifs <;> exact Nat.sub_le _ _

theorem arith_path_fixed_le_baseline_witness :
    (decideResult (mkPatch "A" "a" "oa" "pa" "f1" false) 3 none (mkRun 1 0 2 0)).tests_fixed ≤ 3 :=
  arith_path_fixed_le_baseline (mkPatch "A" "a" "oa" "pa" "f1" false) 3 none
    (mkRun 1 0 2 0) (by decide) (by decide)

/-! ## Claim C2 -/

/-- C2 counterexample: the code takes `baseline_failures =
len(state.failures)` — here 1 — even though every failure already has an
accepted fix, so the claimed baseline (failures without a fix) is 0; the
produced result records `tests_before = 1`, not 0. -/
theorem baseline_ignores_fixes :
    okOf (validate (envRuns (mkRun 1 0 1 0)) fs0 cx2) = true ∧
    (resultsOf (validate (envRuns (mkRun 1 0 1 0)) fs0 cx2)).map
      (fun r => r.tests_before) = [1] ∧
    baselineSpecC2 cx2 = 0 := by decide

/-- C2 (amended): `baseline_failures` is the *total* length of
`state.failures`, ignoring existing fixes; every validation result of a
run (batch-synthesized or sequential) records it as `tests_before`. -/
theorem results_before_is_total_failures (env : Env) (fs : FS) (s : AgentState) :
    ∀ r ∈ resultsOf (validate env fs s), r.tests_before = s.failures.length := by
  intro r hr
  unfold resultsOf at hr
  cases hval : validate env fs s with
  | error e => rw [hval] at hr; simp at hr
  | ok pr =>
    rw [hval] at hr
    obtain ⟨s', fs'⟩ := pr
    simp only [validate] at hval
    cases hb : batchPhase env fs s.failures.length s.patches with
    | error e => rw [hb] at hval; simp at hval
    | ok b =>
      rw [hb] at hval
      simp only [except_bind_ok] at hval
      cases hs : seqLoop env s.failures.length s.pytest_exit_code b.patches b.fs b.runIdx with
      | error e => rw [hs] at hval; simp at hval
      | ok o =>
        rw [hs] at hval
        simp only [except_bind_ok] at hval
        injection hval with hval
        injection hval with h1 h2
        subst h1
        dsimp only at hr
        rw [List.mem_append] at hr
        rcases hr with hr | hr
        · exact batchPhase_results_before env fs s.failures.length s.patches b hb r hr
        · exact seqLoop_results_before env s.failures.length s.pytest_exit_code
            b.patches b.fs b.runIdx o hs r hr

theorem results_before_is_total_failures_witness :
    ({ patch_id := "A", passed := false,
       rejection_reason := some "No tests fixed by this patch", tests_before := 1,
       tests_after := 1, tests_fixed := 0, deterministic := true } : ValidationResult).tests_before
      = cx2.failures.length :=
  results_before_is_total_failures (envRuns (mkRun 1 0 1 0)) fs0 cx2
    { patch_id := "A", passed := false,
      rejection_reason := some "No tests fixed by this patch", tests_before := 1,
      tests_after := 1, tests_fixed := 0, deterministic := true } (by decide)

/-! ## Claim C3 -/

/-- C3 counterexample: on the claimed scenario the code yields CI status
PARTIAL (4 of the 5 failures have no fix and the last exit code is not
the no-tests sentinel) and `fix_efficiency = 1/5` (accepted fixes over
total failures) — not SUCCESS and 1.0 as claimed. -/
theorem scoring_example_diverges :
    ciOf (scoringRun settings0 c3State) = some CIStatus.PARTIAL ∧
    (scoringOf (scoringRun settings0 c3State)).map (fun sc => sc.fix_efficiency) =
      some (1/5) ∧
    ((1 : ℚ)/5 ≠ 1) := by
  obtain ⟨h1, h2⟩ := scoring_partial_core settings0 c3State rfl (by decide) rfl
    ⟨fix1, rfl, rfl⟩ (by decide) rfl rfl rfl
  refine ⟨h1, ?_, by norm_num⟩
  rw [h2]
  rfl

/-- C3 (amended): on the claimed scenario (5 original failures, exactly
one accepted fix, zero regressions, iteration 1 of 5, no fatal error) and
with the last exit code not the no-tests sentinel, the code sets CI
status PARTIAL (not SUCCESS), `fix_efficiency = 1/5` (not 1.0),
`speed_factor = 4/5`, and
`total = BASE + 1*SCORE_PER_FIX + 0.8*SCORE_SPEED_FACTOR*10` with no
CI-success bonus. -/
theorem scoring_example_partial (st : Settings) (s : AgentState)
    (hfat : s.fatal_error = false)
    (hexit : s.pytest_exit_code ≠ some 5)
    (hF : s.failures.length = 5)
    (hfx : ∃ fx : Fix, s.fixes = [fx] ∧ fx.validated = true)
    (hrem : remainingFailures s ≠ 0)
    (hreg : (s.validation_results.map (fun r => r.new_failures_introduced)).sum = 0)
    (hit : s.iteration = 1) (hmax : s.max_retries = 5) :
    ciOf (scoringRun st s) = some CIStatus.PARTIAL ∧
    scoringOf (scoringRun st s) = some
      { base_score := st.SCORE_BASE
        speed_factor := 4/5
        fix_efficiency := 1/5
        regression_penalty := 0
        ci_success_score := 0
        total_score := roundTo 2 (max 0 (st.SCORE_BASE + st.SCORE_PER_FIX +
          4/5 * st.SCORE_SPEED_FACTOR * 10))
        iterations_used := 1
        total_possible_fixes := 5
        actual_fixes := 1
        computation_method := "deterministic" } :=
  scoring_partial_core st s hfat hexit hF hfx hrem hreg hit hmax

theorem scoring_example_partial_witness :
    ciOf (scoringRun settings0 c3State) = some CIStatus.PARTIAL ∧
    scoringOf (scoringRun settings0 c3State) = some
      { base_score := settings0.SCORE_BASE
        speed_factor := 4/5
        fix_efficiency := 1/5
        regression_penalty := 0
        ci_success_score := 0
        total_score := roundTo 2 (max 0 (settings0.SCORE_BASE + settings0.SCORE_PER_FIX +
          4/5 * settings0.SCORE_SPEED_FACTOR * 10))
        iterations_used := 1
        total_possible_fixes := 5
        actual_fixes := 1
        computation_method := "deterministic" } :=
  scoring_example_partial settings0 c3State rfl (by decide) rfl
    ⟨fix1, rfl, rfl⟩ (by decide) rfl rfl rfl

/-! ## Claim C4 -/

/-- C4 counterexample: an I/O error while applying the first patch makes
`validate` raise — it does not reject just that patch and continue; the
remaining patch is never attempted and no state is returned. -/
theorem io_error_aborts_validate_cx :
    env4.writeOk "a" = false ∧
    cx4.patches.map (fun p => p.file_path) = ["a", "b"] ∧
    okOf (validate env4 fs0 cx4) = false ∧
    validate env4 fs0 cx4 = Except.error IOErr.ioError :=
  ⟨by decide, by decide, by decide, rfl⟩

/-! ## Claim C6 -/

/-- C6 counterexample: patch A (file "a") is accepted, then patch B on
the same file is rejected and the rollback writes B's `original_code`,
leaving the file at "ob" — not at accepted patch A's `patched_code`
"pa". -/
theorem accepted_patch_content_clobbered :
    okOf (validate env6 fs0 cx6) = true ∧
    (patchesOf (validate env6 fs0 cx6)).map (fun p => p.validated) = [true, false] ∧
    fsOf (validate env6 fs0 cx6) "a" = "ob" ∧
    cx6.patches.map (fun p => p.patched_code) = ["pa", "pb"] ∧
    fsOf (validate env6 fs0 cx6) "a" ≠ "pa" := by decide

/-! ## Claim C8 -/

/-- C8 counterexample: the claimed grouping (proposed, not-yet-validated
patches) holds one file only, so per the claim no batch attempt may run;
the code nevertheless groups the already-validated patch A too, runs the
batch, and synthesizes a result for A as well. -/
theorem batch_groups_validated_patches :
    (groupSpecC8 cx8.patches).length = 1 ∧
    cx8.patches.map (fun p => p.validated) = [true, false] ∧
    okOf (validate (envRuns (mkRun 0 1 0 0)) fs0 cx8) = true ∧
    (resultsOf (validate (envRuns (mkRun 0 1 0 0)) fs0 cx8)).map
      (fun r => r.patch_id) = ["A", "B"] ∧
    (resultsOf (validate (envRuns (mkRun 0 1 0 0)) fs0 cx8)).map
      (fun r => r.tests_fixed) = [1, 1] := by decide

/-! ## Claim C4, amended part: supporting lemmas -/

theorem applyAll_error (env : Env) :
    ∀ (pairs : List (String × String)) (fs : FS),
      (∃ pr ∈ pairs, env.writeOk pr.1 = false) →
      applyAll env fs pairs = Except.error IOErr.ioError := by
  intro pairs
  induction pairs with
  | nil =>
    intro fs h
    obtain ⟨pr, hm, _⟩ := h
    simp at hm
  | cons hd tl ih =>
    obtain ⟨pa, co⟩ := hd
    intro fs h
    obtain ⟨pr, hm, hw⟩ := h
    simp only [applyAll]
    by_cases hw1 : env.writeOk pa = true
    · simp only [applyCode, if_pos hw1, except_bind_ok]
      apply ih
      rcases List.mem_cons.mp hm with rfl | hm'
      · rw [hw] at hw1
        exact absurd hw1 (by simp)
      · exact ⟨pr, hm', hw⟩
    · have hfalse : env.writeOk pa = false := by
        cases hcase : env.writeOk pa
        · rfl
        · exact absurd hcase hw1
      simp [applyCode, hfalse]

theorem patchesByFileAux_acc_subset :
    ∀ (ps : List Patch) (acc : List (String × Patch)) (e : String × Patch),
      e ∈ acc → e ∈ patchesByFileAux acc ps := by
  intro ps
  induction ps with
  | nil =>
    intro acc e he
    simpa [patchesByFileAux] using he
  | cons q rest ih =>
    intro acc e he
    simp only [patchesByFileAux]
    by_cases hmem : q.file_path ∈ acc.map Prod.fst
    · rw [if_pos hmem]
      exact ih acc e he
    · rw [if_neg hmem]
      exact ih _ e (List.mem_append_left _ he)

theorem patchesByFileAux_keys (p : Patch) :
    ∀ (ps : List Patch) (acc : List (String × Patch)),
      p ∈ ps → ∃ e ∈ patchesByFileAux acc ps, e.1 = p.file_path := by
  intro ps
  induction ps with
  | nil =>
    intro acc h
    simp at h
  | cons q rest ih =>
    intro acc h
    simp only [patchesByFileAux]
    by_cases hmem : q.file_path ∈ acc.map Prod.fst
    · rw [if_pos hmem]
      rcases List.mem_cons.mp h with rfl | h'
      · obtain ⟨e, he, heq⟩ := List.mem_map.mp hmem
        exact ⟨e, patchesByFileAux_acc_subset rest acc e he, heq⟩
      · exact ih acc h'
    · rw [if_neg hmem]
      rcases List.mem_cons.mp h with rfl | h'
      · refine ⟨(p.file_path, p), ?_, rfl⟩
        exact patchesByFileAux_acc_subset rest _ _ (List.mem_append_right _ (by simp))
      · exact ih _ h'

theorem seqLoop_error_of_bad (env : Env) (n : Nat) (pe : Option Nat) (p : Patch)
    (hv : p.validated = false) (hw : env.writeOk p.file_path = false) :
    ∀ (l : List Patch) (fs : FS) (k : Nat), p ∈ l →
      seqLoop env n pe l fs k = Except.error IOErr.ioError := by
  intro l
  induction l with
  | nil =>
    intro fs k h
    simp at h
  | cons q rest ih =>
    intro fs k h
    simp only [seqLoop]
    by_cases hqv : q.validated = true
    · rw [if_pos hqv]
      have hq : p ∈ rest := by
        rcases List.mem_cons.mp h with rfl | h'
        · rw [hv] at hqv
          exact absurd hqv (by simp)
        · exact h'
      rw [ih fs k hq]
      rfl
    · rw [if_neg hqv]
      cases ha : applyCode env fs q.file_path q.patched_code with
      | error e =>
        cases e
        rfl
      | ok fs1 =>
        simp only [except_bind_ok]
        have hqp : p ∈ rest := by
          rcases List.mem_cons.mp h with rfl | h'
          · exfalso
            simp [applyCode, hw] at ha
          · exact h'
        by_cases hps : (decideResult q n pe (env.runs k)).passed = true
        · rw [if_pos hps, ih fs1 (k + 1) hqp]
          rfl
        · rw [if_neg hps]
          cases ha2 : applyCode env fs1 q.file_path q.original_code with
          | error e =>
            cases e
            rfl
          | ok fs2 =>
            simp only [except_bind_ok]
            rw [ih fs2 (k + 1) hqp]
            rfl

/-! ## Claim C4, amended theorem -/

/-- C4 (amended): an I/O error while applying or reverting a patch is
*not* contained to that patch: the agent has no handler, so whenever some
not-yet-validated patch targets an unwritable file the exception
propagates out of `validate`, aborting the session with no state
returned — the remaining patches are not validated. -/
theorem validate_io_error_aborts (env : Env) (fs : FS) (s : AgentState) (p : Patch)
    (hp : p ∈ s.patches) (hv : p.validated = false)
    (hw : env.writeOk p.file_path = false) :
    validate env fs s = Except.error IOErr.ioError := by
  simp only [validate]
  by_cases hgt : (patchesByFile s.patches).length > 1
  · have hkey : ∃ e ∈ patchesByFile s.patches, e.1 = p.file_path :=
      patchesByFileAux_keys p s.patches [] hp
    have happ : applyAll env fs
        ((patchesByFile s.patches).map fun e => (e.1, e.2.patched_code)) =
        Except.error IOErr.ioError := by
      apply applyAll_error
      obtain ⟨e, he, heq⟩ := hkey
      exact ⟨(e.1, e.2.patched_code), List.mem_map_of_mem _ he, by rw [heq]; exact hw⟩
    have hb : batchPhase env fs s.failures.length s.patches =
        Except.error IOErr.ioError := by
      simp only [batchPhase]
      rw [if_pos hgt, happ]
      rfl
    rw [hb]
    rfl
  · have hb : batchPhase env fs s.failures.length s.patches =
        Except.ok { fs := fs, patches := s.patches, results := [], accepted := [], runIdx := 0 } := by
      simp only [batchPhase]
      rw [if_neg hgt]
    rw [hb]
    simp only [except_bind_ok]
    rw [seqLoop_error_of_bad env s.failures.length s.pytest_exit_code p hv hw s.patches fs 0 hp]
    rfl

theorem validate_io_error_aborts_witness :
    validate env4 fs0 cx4 = Except.error IOErr.ioError :=
  validate_io_error_aborts env4 fs0 cx4 (mkPatch "A" "a" "oa" "pa" "f1" false)
    (by decide) rfl rfl

/-! ## Claim C6, amended part: supporting lemmas -/

theorem applyCode_ok_eq (env : Env) (fs fs1 : FS) (path code : String)
    (h : applyCode env fs path code = Except.ok fs1) :
    fs1 = fun q => if q = path then code else fs q := by
  unfold applyCode at h
  split at h
  · injection h with h
    exact h.symm
  · simp at h

theorem seqLoop_all_validated (env : Env) (n : Nat) (pe : Option Nat) :
    ∀ (l : List Patch) (fs : FS) (k : Nat),
      (∀ p ∈ l, p.validated = true) →
      seqLoop env n pe l fs k = Except.ok ⟨l, fs, k, [], []⟩ := by
  intro l
  induction l with
  | nil => intro fs k _; rfl
  | cons q rest ih =>
    intro fs k h
    simp only [seqLoop]
    rw [if_pos (h q (List.mem_cons_self q rest))]
    rw [ih fs k (fun p hp => h p (List.mem_cons_of_mem q hp))]
    rfl

theorem applyAll_nodup (env : Env) :
    ∀ (pairs : List (String × String)) (fs fs1 : FS),
      (pairs.map Prod.fst).Nodup →
      applyAll env fs pairs = Except.ok fs1 →
      (∀ pr ∈ pairs, fs1 pr.1 = pr.2) ∧
      (∀ q, q ∉ pairs.map Prod.fst → fs1 q = fs q) := by
  intro pairs
  induction pairs with
  | nil =>
    intro fs fs1 _ h
    injection h with h
    subst h
    exact ⟨by simp, fun q _ => rfl⟩
  | cons hd tl ih =>
    obtain ⟨pa, co⟩ := hd
    intro fs fs1 hnd h
    simp only [applyAll] at h
    cases ha : applyCode env fs pa co with
    | error e => rw [ha] at h; simp at h
    | ok fsmid =>
      rw [ha] at h
      simp only [except_bind_ok] at h
      have hmid := applyCode_ok_eq env fs fsmid pa co ha
      rw [List.map_cons] at hnd
      have hpa : pa ∉ tl.map Prod.fst := (List.nodup_cons.mp hnd).1
      obtain ⟨h1, h2⟩ := ih fsmid fs1 (List.nodup_cons.mp hnd).2 h
      constructor
      · intro pr hpr
        rcases List.mem_cons.mp hpr with rfl | hpr'
        · rw [h2 pa hpa, hmid]
          simp
        · exact h1 pr hpr'
      · intro q hq
        rw [List.map_cons] at hq
        have hq1 : q ≠ pa := fun e => hq (by simp [e])
        have hq2 : q ∉ tl.map Prod.fst := fun c => hq (List.mem_cons_of_mem _ c)
        rw [h2 q hq2, hmid]
        simp [hq1]

theorem patchesByFileAux_of_distinct :
    ∀ (ps : List Patch) (acc : List (String × Patch)),
      (∀ p ∈ ps, p.file_path ∉ acc.map Prod.fst) →
      (ps.map (fun p => p.file_path)).Nodup →
      patchesByFileAux acc ps = acc ++ ps.map (fun p => (p.file_path, p)) := by
  intro ps
  induction ps with
  | nil => intro acc _ _; simp [patchesByFileAux]
  | cons q rest ih =>
    intro acc hacc hnd
    simp only [patchesByFileAux]
    rw [if_neg (hacc q (List.mem_cons_self q rest))]
    rw [List.map_cons] at hnd
    have hqrest : q.file_path ∉ rest.map (fun p => p.file_path) :=
      (List.nodup_cons.mp hnd).1
    rw [ih (acc ++ [(q.file_path, q)]) ?_ (List.nodup_cons.mp hnd).2]
    · simp
    · intro p hp
      rw [List.map_append, List.mem_append]
      push_neg
      refine ⟨hacc p (List.mem_cons_of_mem q hp), ?_⟩
      simp only [List.map_cons, List.map_nil, List.mem_singleton]
      intro e
      exact hqrest (e ▸ List.mem_map_of_mem (fun p => p.file_path) hp)

theorem patchesByFile_of_distinct (ps : List Patch)
    (hnd : (ps.map (fun p => p.file_path)).Nodup) :
    patchesByFile ps = ps.map (fun p => (p.file_path, p)) := by
  unfold patchesByFile
  rw [patchesByFileAux_of_distinct ps [] (by simp) hnd]
  simp

theorem markFirstPerFile_of_distinct :
    ∀ (ps : List Patch) (seen : List String),
      (∀ p ∈ ps, p.file_path ∉ seen) →
      (ps.map (fun p => p.file_path)).Nodup →
      markFirstPerFile seen ps = ps.map (fun p => { p with validated := true }) := by
  intro ps
  induction ps with
  | nil => intro seen _ _; rfl
  | cons q rest ih =>
    intro seen hseen hnd
    simp only [markFirstPerFile]
    rw [if_neg (hseen q (List.mem_cons_self q rest))]
    rw [List.map_cons] at hnd
    have hqrest : q.file_path ∉ rest.map (fun p => p.file_path) :=
      (List.nodup_cons.mp hnd).1
    rw [ih (q.file_path :: seen) ?_ (List.nodup_cons.mp hnd).2]
    · rfl
    · intro p hp
      simp only [List.mem_cons]
      push_neg
      constructor
      · intro e
        exact hqrest (e ▸ List.mem_map_of_mem (fun p => p.file_path) hp)
      · exact hseen p (List.mem_cons_of_mem q hp)

theorem seqLoop_disk (env : Env) (n : Nat) (pe : Option Nat) :
    ∀ (l : List Patch) (fs : FS) (k : Nat) (o : SeqOut),
      (l.map (fun p => p.file_path)).Nodup →
      (∀ p ∈ l, p.validated = false) →
      seqLoop env n pe l fs k = Except.ok o →
      (∀ p' ∈ o.patches,
        (p'.validated = true → o.fs p'.file_path = p'.patched_code) ∧
        (p'.validated = false → o.fs p'.file_path = p'.original_code)) ∧
      (∀ q, q ∉ l.map (fun p => p.file_path) → o.fs q = fs q) := by
  intro l
  induction l with
  | nil =>
    intro fs k o _ _ h
    injection h with h
    subst h
    exact ⟨by simp, fun q _ => rfl⟩
  | cons p rest ih =>
    intro fs k o hnd hv h
    simp only [seqLoop] at h
    rw [if_neg (by simp [hv p (List.mem_cons_self p rest)])] at h
    cases ha : applyCode env fs p.file_path p.patched_code with
    | error e => rw [ha] at h; simp at h
    | ok fs1 =>
      rw [ha] at h
      simp only [except_bind_ok] at h
      have hfs1 := applyCode_ok_eq env fs fs1 p.file_path p.patched_code ha
      rw [List.map_cons] at hnd
      have hnd' := (List.nodup_cons.mp hnd).2
      have hpnotin : p.file_path ∉ rest.map (fun p => p.file_path) :=
        (List.nodup_cons.mp hnd).1
      have hv' : ∀ x ∈ rest, x.validated = false :=
        fun x hx => hv x (List.mem_cons_of_mem p hx)
      by_cases hps : (decideResult p n pe (env.runs k)).passed = true
      · rw [if_pos hps] at h
        cases hs : seqLoop env n pe rest fs1 (k + 1) with
        | error e => rw [hs] at h; simp at h
        | ok o1 =>
          rw [hs] at h
          simp only [except_bind_ok] at h
          injection h with h
          subst h
          obtain ⟨ih1, ih2⟩ := ih fs1 (k + 1) o1 hnd' hv' hs
          constructor
          · intro p' hp'
            rcases List.mem_cons.mp hp' with rfl | hp''
            · refine ⟨fun _ => ?_, fun hcontra => by simp at hcontra⟩
              show o1.fs p.file_path = p.patched_code
              rw [ih2 p.file_path hpnotin, hfs1]
              simp
            · exact ih1 p' hp''
          · intro q hq
            rw [List.map_cons] at hq
            have hq1 : q ≠ p.file_path := fun e => hq (by simp [e])
            have hq2 : q ∉ rest.map (fun p => p.file_path) :=
              fun c => hq (List.mem_cons_of_mem _ c)
            show o1.fs q = fs q
            rw [ih2 q hq2, hfs1]
            simp [hq1]
      · rw [if_neg hps] at h
        cases ha2 : applyCode env fs1 p.file_path p.original_code with
        | error e => rw [ha2] at h; simp at h
        | ok fs2 =>
          rw [ha2] at h
          simp only [except_bind_ok] at h
          have hfs2 := applyCode_ok_eq env fs1 fs2 p.file_path p.original_code ha2
          cases hs : seqLoop env n pe rest fs2 (k + 1) with
          | error e => rw [hs] at h; simp at h
          | ok o1 =>
            rw [hs] at h
            simp only [except_bind_ok] at h
            injection h with h
            subst h
            obtain ⟨ih1, ih2⟩ := ih fs2 (k + 1) o1 hnd' hv' hs
            constructor
            · intro p' hp'
              rcases List.mem_cons.mp hp' with rfl | hp''
              · refine ⟨fun hcontra => ?_, fun _ => ?_⟩
                · rw [hv p' (List.mem_cons_self p' rest)] at hcontra
                  exact absurd hcontra (by simp)
                · show o1.fs p'.file_path = p'.original_code
                  rw [ih2 p'.file_path hpnotin, hfs2]
                  simp
              · exact ih1 p' hp''
            · intro q hq
              rw [List.map_cons] at hq
              have hq1 : q ≠ p.file_path := fun e => hq (by simp [e])
              have hq2 : q ∉ rest.map (fun p => p.file_path) :=
                fun c => hq (List.mem_cons_of_mem _ c)
              show o1.fs q = fs q
              rw [ih2 q hq2, hfs2, hfs1]
              simp [hq1]

theorem applyAll_map_nodup (env : Env) (g : Patch → String) :
    ∀ (ps : List Patch) (fs fs1 : FS),
      (ps.map (fun p => p.file_path)).Nodup →
      applyAll env fs (ps.map (fun p => (p.file_path, g p))) = Except.ok fs1 →
      ∀ p ∈ ps, fs1 p.file_path = g p := by
  intro ps fs fs1 hnd h p hp
  obtain ⟨h1, _⟩ := applyAll_nodup env (ps.map (fun p => (p.file_path, g p))) fs fs1
    (by simpa [List.map_map, Function.comp] using hnd) h
  exact h1 (p.file_path, g p) (List.mem_map_of_mem _ hp)

/-! ## Claim C6, amended theorem -/

/-- C6 (amended): provided every patch targets a distinct file and none
is pre-validated, the claimed disk guarantee holds for runs that return
without an I/O error: each patch flagged validated ends with its file at
`patched_code`, and each rejected (unflagged) patch ends with its file
restored to `original_code`.  (With two patches on one file the guarantee
fails — see the counterexample — because a later rejection's rollback
overwrites an earlier accepted patch's content.) -/
theorem validate_disk_state (env : Env) (fs : FS) (s : AgentState)
    (hnd : (s.patches.map (fun p => p.file_path)).Nodup)
    (hv : ∀ p ∈ s.patches, p.validated = false)
    (hok : okOf (validate env fs s) = true) :
    ∀ p' ∈ patchesOf (validate env fs s),
      (p'.validated = true → fsOf (validate env fs s) p'.file_path = p'.patched_code) ∧
      (p'.validated = false → fsOf (validate env fs s) p'.file_path = p'.original_code) := by
  cases hval : validate env fs s with
  | error e => rw [hval] at hok; simp [okOf] at hok
  | ok pr =>
    obtain ⟨s', fs'⟩ := pr
    simp only [patchesOf, fsOf]
    simp only [validate] at hval
    cases hb : batchPhase env fs s.failures.length s.patches with
    | error e => rw [hb] at hval; simp at hval
    | ok b =>
      rw [hb] at hval
      simp only [except_bind_ok] at hval
      cases hs : seqLoop env s.failures.length s.pytest_exit_code b.patches b.fs b.runIdx with
      | error e => rw [hs] at hval; simp at hval
      | ok o =>
        rw [hs] at hval
        simp only [except_bind_ok] at hval
        injection hval with hval
        injection hval with h1 h2
        subst h1
        subst h2
        simp only [batchPhase] at hb
        by_cases hgt : (patchesByFile s.patches).length > 1
        · rw [if_pos hgt] at hb
          cases ha : applyAll env fs
              ((patchesByFile s.patches).map fun e => (e.1, e.2.patched_code)) with
          | error e => rw [ha] at hb; simp at hb
          | ok fs1 =>
            rw [ha] at hb
            simp only [except_bind_ok] at hb
            by_cases hacc : ((env.runs 0).failed + (env.runs 0).errors < s.failures.length ∨
                (s.failures.length = 0 ∧ (env.runs 0).exit_code = 0))
            · rw [if_pos hacc] at hb
              injection hb with hb
              subst hb
              -- batch accepted: every patch is flagged and on disk at patched_code
              have hmark : markFirstPerFile [] s.patches =
                  s.patches.map (fun p => { p with validated := true }) :=
                markFirstPerFile_of_distinct s.patches [] (by simp) hnd
              have hallv : ∀ p' ∈ s.patches.map (fun p => { p with validated := true }),
                  p'.validated = true := by
                intro p' hp'
                obtain ⟨p, _, rfl⟩ := List.mem_map.mp hp'
                rfl
              have hseq := seqLoop_all_validated env s.failures.length s.pytest_exit_code
                (s.patches.map (fun p => { p with validated := true })) fs1 1 hallv
              dsimp only at hs
              rw [hmark, hseq] at hs
              injection hs with hs
              subst hs
              -- o is now explicit
              have hdisk : ∀ p ∈ s.patches, fs1 p.file_path = p.patched_code := by
                rw [patchesByFile_of_distinct s.patches hnd, List.map_map] at ha
                exact applyAll_map_nodup env (fun p => p.patched_code) s.patches fs fs1 hnd ha
              intro p' hp'
              dsimp only at hp'
              obtain ⟨p, hpmem, rfl⟩ := List.mem_map.mp hp'
              refine ⟨fun _ => ?_, fun hcontra => by simp at hcontra⟩
              show fs1 p.file_path = p.patched_code
              exact hdisk p hpmem
            · rw [if_neg hacc] at hb
              cases ha2 : applyAll env fs1
                  ((patchesByFile s.patches).map fun e => (e.1, e.2.original_code)) with
              | error e => rw [ha2] at hb; simp at hb
              | ok fs2 =>
                rw [ha2] at hb
                simp only [except_bind_ok] at hb
                injection hb with hb
                subst hb
                obtain ⟨ih1, _⟩ := seqLoop_disk env s.failures.length s.pytest_exit_code
                  s.patches fs2 1 o hnd hv hs
                exact ih1
        · rw [if_neg hgt] at hb
          injection hb with hb
          subst hb
          obtain ⟨ih1, _⟩ := seqLoop_disk env s.failures.length s.pytest_exit_code
            s.patches fs 0 o hnd hv hs
          exact ih1

theorem validate_disk_state_witness :
    ((mkPatch "A" "a" "oa" "pa" "f1" true).validated = true →
      fsOf (validate envW6 fs0 cx4) (mkPatch "A" "a" "oa" "pa" "f1" true).file_path =
        (mkPatch "A" "a" "oa" "pa" "f1" true).patched_code) ∧
    ((mkPatch "A" "a" "oa" "pa" "f1" true).validated = false →
      fsOf (validate envW6 fs0 cx4) (mkPatch "A" "a" "oa" "pa" "f1" true).file_path =
        (mkPatch "A" "a" "oa" "pa" "f1" true).original_code) :=
  validate_disk_state envW6 fs0 cx4 (by decide) (by decide) (by decide)
    (mkPatch "A" "a" "oa" "pa" "f1" true) (by decide)

/-! ## Claim C8, amended part: supporting lemmas -/

theorem markFirstPerFile_congr :
    ∀ (ps : List Patch) (s₁ s₂ : List String),
      (∀ x, x ∈ s₁ ↔ x ∈ s₂) →
      markFirstPerFile s₁ ps = markFirstPerFile s₂ ps := by
  intro ps
  induction ps with
  | nil => intro _ _ _; rfl
  | cons q rest ih =>
    intro s₁ s₂ hiff
    simp only [markFirstPerFile]
    by_cases hm : q.file_path ∈ s₁
    · rw [if_pos hm, if_pos ((hiff _).mp hm), ih s₁ s₂ hiff]
    · rw [if_neg hm, if_neg (fun c => hm ((hiff _).mpr c))]
      rw [ih (q.file_path :: s₁) (q.file_path :: s₂) (by intro x; simp [hiff x])]

theorem patchesByFileAux_marked :
    ∀ (ps : List Patch) (acc : List (String × Patch)) (e : String × Patch),
      e ∈ patchesByFileAux acc ps →
      e ∈ acc ∨ { e.2 with validated := true } ∈ markFirstPerFile (acc.map Prod.fst) ps := by
  intro ps
  induction ps with
  | nil =>
    intro acc e he
    left
    simpa [patchesByFileAux] using he
  | cons q rest ih =>
    intro acc e he
    simp only [patchesByFileAux] at he
    simp only [markFirstPerFile]
    by_cases hm : q.file_path ∈ acc.map Prod.fst
    · rw [if_pos hm] at he
      rw [if_pos hm]
      rcases ih acc e he with h | h
      · exact Or.inl h
      · exact Or.inr (List.mem_cons_of_mem q h)
    · rw [if_neg hm] at he
      rw [if_neg hm]
      rcases ih (acc ++ [(q.file_path, q)]) e he with h | h
      · rcases List.mem_append.mp h with h' | h'
        · exact Or.inl h'
        · right
          have he2 : e = (q.file_path, q) := by simpa using h'
          subst he2
          exact List.mem_cons_self _ _
      · right
        have hcongr : markFirstPerFile ((acc ++ [(q.file_path, q)]).map Prod.fst) rest =
            markFirstPerFile (q.file_path :: acc.map Prod.fst) rest := by
          apply markFirstPerFile_congr
          intro x
          simp [or_comm]
        rw [hcongr] at h
        exact List.mem_cons_of_mem _ h

theorem seqLoop_preserves_validated (env : Env) (n : Nat) (pe : Option Nat) (p : Patch)
    (hv : p.validated = true) :
    ∀ (l : List Patch) (fs : FS) (k : Nat) (o : SeqOut),
      p ∈ l → seqLoop env n pe l fs k = Except.ok o → p ∈ o.patches := by
  intro l
  induction l with
  | nil =>
    intro fs k o h _
    simp at h
  | cons q rest ih =>
    intro fs k o h hrun
    simp only [seqLoop] at hrun
    by_cases hqv : q.validated = true
    · rw [if_pos hqv] at hrun
      cases hs : seqLoop env n pe rest fs k with
      | error e => rw [hs] at hrun; simp at hrun
      | ok o1 =>
        rw [hs] at hrun
        simp only [except_bind_ok] at hrun
        injection hrun with hrun
        subst hrun
        rcases List.mem_cons.mp h with rfl | h'
        · exact List.mem_cons_self _ _
        · exact List.mem_cons_of_mem _ (ih fs k o1 h' hs)
    · rw [if_neg hqv] at hrun
      have h' : p ∈ rest := by
        rcases List.mem_cons.mp h with rfl | h'
        · rw [hv] at hqv
          exact absurd rfl hqv
        · exact h'
      cases ha : applyCode env fs q.file_path q.patched_code with
      | error e => rw [ha] at hrun; simp at hrun
      | ok fs1 =>
        rw [ha] at hrun
        simp only [except_bind_ok] at hrun
        by_cases hps : (decideResult q n pe (env.runs k)).passed = true
        · rw [if_pos hps] at hrun
          cases hs : seqLoop env n pe rest fs1 (k + 1) with
          | error e => rw [hs] at hrun; simp at hrun
          | ok o1 =>
            rw [hs] at hrun
            simp only [except_bind_ok] at hrun
            injection hrun with hrun
            subst hrun
            exact List.mem_cons_of_mem _ (ih fs1 (k + 1) o1 h' hs)
        · rw [if_neg hps] at hrun
          cases ha2 : applyCode env fs1 q.file_path q.original_code with
          | error e => rw [ha2] at hrun; simp at hrun
          | ok fs2 =>
            rw [ha2] at hrun
            simp only [except_bind_ok] at hrun
            cases hs : seqLoop env n pe rest fs2 (k + 1) with
            | error e => rw [hs] at hrun; simp at hrun
            | ok o1 =>
              rw [hs] at hrun
              simp only [except_bind_ok] at hrun
              injection hrun with hrun
              subst hrun
              exact List.mem_cons_of_mem _ (ih fs2 (k + 1) o1 h' hs)

/-! ## Claim C8, amended theorem -/

/-- C8 (amended): the batch attempt groups *all* patches in
`state.patches` by target file (first per file, the `validated` flag is
not consulted), runs only when more than one distinct file is grouped,
and accepts the whole batch iff `failed + errored < baselineFailures` or
`baselineFailures = 0` with exit code 0; on acceptance the run's results
begin with one synthesized ValidationResult per grouped patch — all
sharing `tests_before = len(failures)`, the batch `tests_after`, and
`tests_fixed = 1` — and every grouped patch (pre-validated or not) is
flagged validated in the returned patch list. -/
theorem batch_accept_synthesizes (env : Env) (fs : FS) (s : AgentState)
    (hgt : 1 < (patchesByFile s.patches).length)
    (hacc : (env.runs 0).failed + (env.runs 0).errors < s.failures.length ∨
      (s.failures.length = 0 ∧ (env.runs 0).exit_code = 0))
    (hok : okOf (validate env fs s) = true) :
    (resultsOf (validate env fs s)).take (patchesByFile s.patches).length =
      (patchesByFile s.patches).map (fun e =>
        { patch_id := e.2.patch_id, passed := true, tests_before := s.failures.length,
          tests_after := (env.runs 0).failed + (env.runs 0).errors,
          tests_fixed := 1, deterministic := true }) ∧
    ∀ e ∈ patchesByFile s.patches,
      { e.2 with validated := true } ∈ patchesOf (validate env fs s) := by
  cases hval : validate env fs s with
  | error e => rw [hval] at hok; simp [okOf] at hok
  | ok pr =>
    obtain ⟨s', fs'⟩ := pr
    simp only [patchesOf, resultsOf]
    simp only [validate] at hval
    cases hb : batchPhase env fs s.failures.length s.patches with
    | error e => rw [hb] at hval; simp at hval
    | ok b =>
      rw [hb] at hval
      simp only [except_bind_ok] at hval
      cases hs : seqLoop env s.failures.length s.pytest_exit_code b.patches b.fs b.runIdx with
      | error e => rw [hs] at hval; simp at hval
      | ok o =>
        rw [hs] at hval
        simp only [except_bind_ok] at hval
        injection hval with hval
        injection hval with h1 h2
        subst h1
        subst h2
        simp only [batchPhase] at hb
        rw [if_pos hgt] at hb
        cases ha : applyAll env fs
            ((patchesByFile s.patches).map fun e => (e.1, e.2.patched_code)) with
        | error e => rw [ha] at hb; simp at hb
        | ok fs1 =>
          rw [ha] at hb
          simp only [except_bind_ok] at hb
          rw [if_pos hacc] at hb
          injection hb with hb
          subst hb
          dsimp only at hs ⊢
          constructor
          · rw [show (patchesByFile s.patches).length =
                ((patchesByFile s.patches).map (fun e =>
                  ({ patch_id := e.2.patch_id, passed := true,
                     tests_before := s.failures.length,
                     tests_after := (env.runs 0).failed + (env.runs 0).errors,
                     tests_fixed := 1, deterministic := true } : ValidationResult))).length
              from (List.length_map _ _).symm]
            exact List.take_left _ _
          · intro e he
            have hmark := patchesByFileAux_marked s.patches [] e he
            simp only [List.map_nil] at hmark
            rcases hmark with h | h
            · simp at h
            · exact seqLoop_preserves_validated env s.failures.length s.pytest_exit_code
                { e.2 with validated := true } rfl (markFirstPerFile [] s.patches) fs1 1 o h hs

theorem batch_accept_synthesizes_witness :
    (resultsOf (validate (envRuns (mkRun 0 1 0 0)) fs0 cx8)).take
        (patchesByFile cx8.patches).length =
      (patchesByFile cx8.patches).map (fun e =>
        { patch_id := e.2.patch_id, passed := true, tests_before := cx8.failures.length,
          tests_after := ((envRuns (mkRun 0 1 0 0)).runs 0).failed +
            ((envRuns (mkRun 0 1 0 0)).runs 0).errors,
          tests_fixed := 1, deterministic := true }) ∧
    ({ mkPatch "B" "b" "ob" "pb" "f1" false with validated := true } : Patch) ∈
      patchesOf (validate (envRuns (mkRun 0 1 0 0)) fs0 cx8) :=
  ⟨(batch_accept_synthesizes (envRuns (mkRun 0 1 0 0)) fs0 cx8 (by decide) (by decide)
      (by decide)).1,
   (batch_accept_synthesizes (envRuns (mkRun 0 1 0 0)) fs0 cx8 (by decide) (by decide)
      (by decide)).2 ("b", mkPatch "B" "b" "ob" "pb" "f1" false) (by decide)⟩
